import Mathlib

/-!
# ARM32 machine instructions and operands of Subzero (`src/IceInstARM32.h`)

A shallow embedding of the operand, branch and instruction-shape model declared
in `IceInstARM32.h`, with the properties of its encodability queries, addressing
modes, branch factories and rewrites, and instruction constructors.

Conventions of the embedding:
* a C++ pointer that may be null is an `Option`;
* `uint32_t` values are natural numbers, truncated with `% 2 ^ 32` where a
  shift can leave the 32-bit range;
* a factory whose `assert` fails returns `none`.
-/

namespace Ice

/-! ## Definitions -/

/-- Rotation of the 32-bit word `x` to the right by `k` bits, `k ≤ 32`: the bits
shifted out at the bottom come back at the top. Both shifts are `uint32_t`
shifts, so the left shift is truncated to 32 bits. -/
def rotr32 (x k : Nat) : Nat :=
  (x % 2 ^ 32) >>> k ||| ((x % 2 ^ 32) <<< (32 - k)) % 2 ^ 32

/-- Rotation of the 32-bit word `x` to the left by `k` bits, `k ≤ 32`. -/
def rotl32 (x k : Nat) : Nat :=
  ((x % 2 ^ 32) <<< k) % 2 ^ 32 ||| (x % 2 ^ 32) >>> (32 - k)

/-- The two out-parameters `canHoldImm` fills in when the immediate fits. -/
structure FlexImmEncoding where
  RotateAmt : Nat
  Immed_8 : Nat
deriving DecidableEq

namespace OperandARM32FlexImm

/-- Modelled from the spec: the body of `OperandARM32FlexImm::canHoldImm` is in
`IceInstARM32.cpp`, which is not among the sources; the header only declares it
(`canHoldImm(uint32_t Immediate, uint32_t *RotateAmt, uint32_t *Immed_8)`,
"Return true if the Immediate can fit in the ARM flexible operand. Fills in the
out-params RotateAmt and Immed_8 if Immediate fits"). The spec: for every 32-bit
input it returns whether a rotated-8-bit encoding exists and, if so, one valid
`(value, rotate)` pair with `rotr(value, 2*rotate) == input`, `0 ≤ value ≤ 255`,
`0 ≤ rotate ≤ 15`. The model looks for one by trying the rotate amounts
`0, 1, …, 15` in turn: undoing the rotation (rotating the input left by
`2 * rotate`) must leave an 8-bit value. `none` is the result `false`;
`some e` is the result `true` with `e` the out-parameters. -/
def canHoldImm (Immediate : Nat) : Option FlexImmEncoding :=
  ((List.range 16).find? (fun Rot => decide (rotl32 Immediate (2 * Rot) ≤ 255))).map
    (fun Rot => { RotateAmt := Rot, Immed_8 := rotl32 Immediate (2 * Rot) })

end OperandARM32FlexImm

/-- The value type `Ice::Type` of an operand. Its enumerators come from
`IceTypes.def`, which is not among the sources; only the identity of a type
matters here, so it is kept as the enumerator's number. -/
abbrev IceType := Nat

/-- An `Ice::Variable`, referred to by the instructions and operands through a
pointer; built from a type and an index as in `Variable(Kind, Ty, Index)`. -/
structure Variable where
  Ty : IceType
  Index : Nat
deriving DecidableEq

/-- A `ConstantInteger32`: a plain 32-bit integer constant. -/
structure ConstantInteger32 where
  Value : Int
deriving DecidableEq

namespace OperandARM32

/-- The enumeration `OperandARM32::ShiftKind`, kept as the integer value of the
enumerator: `kNoShift = -1`, then the shift kinds of `ICEINSTARM32SHIFT_TABLE`
(from `IceInstARM32.def`, not among the sources) numbered from 0. -/
abbrev ShiftKind := Int

/-- The enumerator `kNoShift = -1`. -/
def kNoShift : ShiftKind := -1

end OperandARM32

namespace OperandARM32Mem

/-- Memory operand addressing mode, `OperandARM32Mem::AddrMode`. -/
inductive AddrMode where
  | Offset
  | PreIndex
  | PostIndex
  | NegOffset
  | NegPreIndex
  | NegPostIndex
deriving DecidableEq

/-- The value of each `AddrMode` enumerator ("the enum value also carries the
encoding", bit encoding P U W). -/
def AddrMode.val : AddrMode → Nat
  | .Offset => (8 ||| 4 ||| 0) <<< 21
  | .PreIndex => (8 ||| 4 ||| 1) <<< 21
  | .PostIndex => (0 ||| 4 ||| 0) <<< 21
  | .NegOffset => (8 ||| 0 ||| 0) <<< 21
  | .NegPreIndex => (8 ||| 0 ||| 1) <<< 21
  | .NegPostIndex => (0 ||| 0 ||| 0) <<< 21

end OperandARM32Mem

/-- The fields of an `OperandARM32Mem`, with the operand's type from the
`Operand` base class. `ImmOffset` and `Index` are pointers that may be null. -/
structure OperandARM32Mem where
  Ty : IceType
  Base : Variable
  ImmOffset : Option ConstantInteger32
  Index : Option Variable
  ShiftOp : OperandARM32.ShiftKind
  ShiftAmt : Nat
  Mode : OperandARM32Mem.AddrMode
deriving DecidableEq

namespace OperandARM32Mem

/-- The accessor `getOffset()`. -/
def getOffset (M : OperandARM32Mem) : Option ConstantInteger32 := M.ImmOffset

/-- The accessor `getIndex()`. -/
def getIndex (M : OperandARM32Mem) : Option Variable := M.Index

/-- The accessor `getAddrMode()`. -/
def getAddrMode (M : OperandARM32Mem) : AddrMode := M.Mode

/-- The query `isRegReg()`: `Index != nullptr`. -/
def isRegReg (M : OperandARM32Mem) : Bool := M.Index.isSome

/-- The query `isNegAddrMode()`: `(Mode & (4 << 21)) == 0`; positive address modes have
the "U" bit set, and negative modes don't. -/
def isNegAddrMode (M : OperandARM32Mem) : Bool := (M.Mode.val &&& (4 <<< 21)) == 0

/-- Modelled from the spec: the bodies of the two private `OperandARM32Mem`
constructors are in `IceInstARM32.cpp`, which is not among the sources; the
header only declares them. The spec's construction contract: a memory operand is
`{ base, offset: immediate | none, index: register | none, shift-kind,
shift-amount, addressing-mode }`; constructing with both `index` and `offset`
set must fail, constructing with neither set must fail; otherwise the operand
holds what it was given. -/
def construct (Ty : IceType) (Base : Variable) (ImmOffset : Option ConstantInteger32)
    (Index : Option Variable) (ShiftOp : OperandARM32.ShiftKind) (ShiftAmt : Nat)
    (Mode : AddrMode) : Option OperandARM32Mem :=
  match ImmOffset, Index with
  | some _, some _ => none
  | none, none => none
  | _, _ => some
      { Ty := Ty, Base := Base, ImmOffset := ImmOffset, Index := Index,
        ShiftOp := ShiftOp, ShiftAmt := ShiftAmt, Mode := Mode }

/-- The first `create`, (1) Reg + Imm: `create(Func, Ty, Base, ImmOffset, Mode)`
passes its arguments to the constructor that takes an immediate offset; that
constructor is given no index and no shift. -/
def createImm (Ty : IceType) (Base : Variable) (ImmOffset : Option ConstantInteger32)
    (Mode : AddrMode) : Option OperandARM32Mem :=
  construct Ty Base ImmOffset none OperandARM32.kNoShift 0 Mode

/-- The second `create`, (2) Reg plus or minus Reg with an optional shift:
`create(Func, Ty, Base, Index, ShiftOp, ShiftAmt, Mode)` passes its arguments
to the constructor that takes an index register; that constructor is given no
immediate offset. -/
def createReg (Ty : IceType) (Base : Variable) (Index : Option Variable)
    (ShiftOp : OperandARM32.ShiftKind) (ShiftAmt : Nat) (Mode : AddrMode) :
    Option OperandARM32Mem :=
  construct Ty Base none Index ShiftOp ShiftAmt Mode

end OperandARM32Mem

/-- A node of the control-flow graph (`CfgNode`, declared outside this header),
referred to by a branch through a pointer and told apart by its number. -/
structure CfgNode where
  Number : Nat
deriving DecidableEq

/-- An `InstARM32Label`: an intra-block label with its unique number. -/
structure InstARM32Label where
  Number : Nat
deriving DecidableEq

/-- The fields of an `InstARM32Br`: the predicate inherited from
`InstARM32Pred`, the two block targets and the intra-block label target, each
target a pointer that may be null. The condition enumeration `CondARM32::Cond`
comes from `IceConditionCodesARM32.h`, which is not among the sources, so it is
the parameter `Cond`; its enumerator `CondARM32::AL` is passed as `AL` to the
operations that name it. -/
structure InstARM32Br (Cond : Type) where
  Predicate : Cond
  TargetTrue : Option CfgNode
  TargetFalse : Option CfgNode
  Label : Option InstARM32Label
deriving DecidableEq

namespace InstARM32Br

variable {Cond : Type} [DecidableEq Cond]

/-- Modelled from the spec: the body of the private constructor
`InstARM32Br(Func, TargetTrue, TargetFalse, Label, Predicate)` is in
`IceInstARM32.cpp`, which is not among the sources; the header declares it and
the fields `TargetTrue`, `TargetFalse`, `Label` it fills, and gives the
`InstARM32Pred` constructor that stores `Predicate`. The spec: a branch holds up
to two outgoing block-level targets (`targetTrue`, `targetFalse`) or a single
intra-block label target, plus a condition. The constructor stores each argument
in the field of the same name. -/
def construct (TargetTrue TargetFalse : Option CfgNode) (Label : Option InstARM32Label)
    (Predicate : Cond) : InstARM32Br Cond :=
  { Predicate := Predicate, TargetTrue := TargetTrue, TargetFalse := TargetFalse,
    Label := Label }

/-- The accessor `getPredicate()` of `InstARM32Pred`. -/
def getPredicate (B : InstARM32Br Cond) : Cond := B.Predicate

/-- The accessor `getTargetTrue()`. -/
def getTargetTrue (B : InstARM32Br Cond) : Option CfgNode := B.TargetTrue

/-- The accessor `getTargetFalse()`. -/
def getTargetFalse (B : InstARM32Br Cond) : Option CfgNode := B.TargetFalse

/-- Create a conditional branch to one of two nodes:
`create(Func, TargetTrue, TargetFalse, Predicate)`, which asserts
`Predicate != CondARM32::AL` and passes no label. -/
def createTwoNodes (AL : Cond) (TargetTrue TargetFalse : Option CfgNode) (Predicate : Cond) :
    Option (InstARM32Br Cond) :=
  if Predicate = AL then none
  else some (construct TargetTrue TargetFalse none Predicate)

/-- Create an unconditional branch to a node: `create(Func, Target)`, with no
conditional target, no label and the predicate `CondARM32::AL`. -/
def createUnconditional (AL : Cond) (Target : Option CfgNode) : InstARM32Br Cond :=
  construct none Target none AL

/-- Create a non-terminator conditional branch to a node, with a fallthrough to
the next instruction in the current node: `create(Func, Target, Predicate)`,
which asserts `Predicate != CondARM32::AL` and passes no unconditional target and
no label. -/
def createFallthrough (AL : Cond) (Target : Option CfgNode) (Predicate : Cond) :
    Option (InstARM32Br Cond) :=
  if Predicate = AL then none
  else some (construct Target none none Predicate)

/-- Create a conditional intra-block branch (or unconditional, if the condition
is AL) to a label in the current block: `create(Func, Label, Predicate)`, with
neither block target. -/
def createLabel (Label : Option InstARM32Label) (Predicate : Cond) : InstARM32Br Cond :=
  construct none none Label Predicate

/-- The count `getEmitInstCount()`: a sum that starts at 0 and is incremented once for
each of `Label`, `getTargetTrue()`, `getTargetFalse()` that is not null. The sum
is a `uint32_t`; it never exceeds 3. -/
def getEmitInstCount (B : InstARM32Br Cond) : Nat :=
  let Sum := 0
  let Sum := if B.Label.isSome then Sum + 1 else Sum
  let Sum := if B.getTargetTrue.isSome then Sum + 1 else Sum
  let Sum := if B.getTargetFalse.isSome then Sum + 1 else Sum
  Sum

/-- The query `isUnconditionalBranch()`: `getPredicate() == CondARM32::AL`. -/
def isUnconditionalBranch (AL : Cond) (B : InstARM32Br Cond) : Bool :=
  decide (B.getPredicate = AL)

/-- Modelled from the spec: the body of `InstARM32Br::optimizeBranch` is in
`IceInstARM32.cpp`, which is not among the sources; the header only declares
`bool optimizeBranch(const CfgNode *NextNode)`. The spec: if the instruction's
sole or "false" block target is physically `nextNode`, the branch is redundant
for that edge and the instruction is simplified: it degenerates to the smallest
shape that still encodes the remaining real edge (on a two-target conditional
branch the false edge is eliminated while `targetTrue` and the condition are
preserved), or it is eliminated entirely if no edge survives (an unconditional
branch whose sole target is `nextNode`); the exclusion of label target and block
targets is not broken. A branch to a label has no block target and is left as it
is, and so is a branch whose false target is not `nextNode`. The result is the
instruction after the call, `none` when it has been eliminated; the spec does not
describe the boolean the call returns, and it is not modelled. -/
def optimizeBranch (B : InstARM32Br Cond) (NextNode : CfgNode) : Option (InstARM32Br Cond) :=
  if B.Label.isSome then some B
  else if B.getTargetFalse = some NextNode then
    if B.getTargetTrue.isSome then some { B with TargetFalse := none }
    else none
  else some B

/-- The block-level edges an instruction can take after `optimizeBranch`: none
for an eliminated instruction, otherwise the block targets that are populated. -/
def takenEdges (R : Option (InstARM32Br Cond)) : List CfgNode :=
  match R with
  | none => []
  | some B => B.TargetTrue.toList ++ B.TargetFalse.toList

/-- The invariant that block targets and the label target exclude each other:
with a label, neither block target is populated. -/
def targetsExclusive (B : InstARM32Br Cond) : Prop :=
  B.Label = none ∨ (B.TargetTrue = none ∧ B.TargetFalse = none)

end InstARM32Br

/-- An `Ice::Operand` as an instruction refers to it through a pointer: a
variable, an integer constant, or one of the ARM32 operands of this header (a
memory operand, a rotated immediate, a shifted register). -/
inductive Operand where
  | Var (V : Variable)
  | Const (C : ConstantInteger32)
  | Mem (M : OperandARM32Mem)
  | FlexImm (Ty : IceType) (Imm RotateAmt : Nat)
  | FlexReg (Ty : IceType) (Reg : Variable) (ShiftOp : OperandARM32.ShiftKind)
      (ShiftAmt : Operand)
deriving DecidableEq

namespace InstARM32

/-- The enumeration `InstARM32::InstKindARM32`, without its marker `k__Start`. -/
inductive InstKindARM32 where
  | Adc | Add | Adjuststack | And | Asr | Bic | Br | Call | Cmp | Clz | Dmb | Eor
  | Label | Ldr | Ldrex | Lsl | Lsr | Mla | Mls | Mov | Movt | Movw | Mul | Mvn
  | Orr | Pop | Push | Rbit | Ret | Rev | Rsb | Sbc | Sdiv | Str | Strex | Sub
  | Sxt | Trap | Tst | Udiv | Umull | Uxt | Vabs | Vadd | Vcmp | Vcvt | Vdiv
  | Vmrs | Vmul | Vsqrt | Vsub
deriving DecidableEq

/-- The two bases an instruction class of this header derives from: `InstARM32`
itself, or `InstARM32Pred`, "a predicable ARM instruction", which adds the
`Predicate` field with `getPredicate()` and `setPredicate()`. -/
inductive BaseClass where
  | InstARM32
  | InstARM32Pred
deriving DecidableEq

/-- The base class in the declaration of the class of each instruction kind:
`class InstARM32Trap : public InstARM32`, `class InstARM32Dmb final : public
InstARM32Pred`, and so on; for the kinds made from a template, the base of the
template (`InstARM32ThreeAddrFP` derives from `InstARM32`, the other templates
from `InstARM32Pred`). -/
def InstKindARM32.baseClass : InstKindARM32 → BaseClass
  | .Adc | .Add | .And | .Asr | .Bic | .Eor | .Lsl | .Lsr | .Mul | .Orr | .Rsb
  | .Sbc | .Sdiv | .Sub | .Udiv => .InstARM32Pred
  | .Vadd | .Vdiv | .Vmul | .Vsub => .InstARM32
  | .Ldr | .Ldrex => .InstARM32Pred
  | .Movt => .InstARM32Pred
  | .Movw | .Clz | .Mvn | .Rbit | .Rev | .Sxt | .Uxt => .InstARM32Pred
  | .Vsqrt => .InstARM32Pred
  | .Mla | .Mls => .InstARM32Pred
  | .Cmp | .Tst => .InstARM32Pred
  | .Label => .InstARM32
  | .Br => .InstARM32Pred
  | .Adjuststack => .InstARM32
  | .Call => .InstARM32
  | .Pop => .InstARM32
  | .Push => .InstARM32
  | .Ret => .InstARM32
  | .Str => .InstARM32Pred
  | .Strex => .InstARM32Pred
  | .Trap => .InstARM32
  | .Umull => .InstARM32Pred
  | .Vcvt => .InstARM32Pred
  | .Mov => .InstARM32Pred
  | .Vcmp => .InstARM32Pred
  | .Vmrs => .InstARM32Pred
  | .Vabs => .InstARM32Pred
  | .Dmb => .InstARM32Pred

end InstARM32

/-- The state of an instruction that the constructors of this header fill in
through the base class: its kind, the declared source capacity `Maxsrcs`, the
destination (null for an instruction without one) and the sources added so
far, in order. -/
structure InstARM32 where
  Kind : InstARM32.InstKindARM32
  MaxSrcs : Nat
  Dest : Option Variable
  Srcs : List Operand
deriving DecidableEq

namespace InstARM32

/-- Modelled from the spec: the constructor `InstARM32(Func, Kind, Maxsrcs, Dest)`
passes its arguments to `InstTarget`, whose constructor is in `IceInst.h`, not
among the sources. The instruction starts with the kind, the source capacity and
the destination given, and with no source. -/
def construct (Kind : InstKindARM32) (Maxsrcs : Nat) (Dest : Option Variable) : InstARM32 :=
  { Kind := Kind, MaxSrcs := Maxsrcs, Dest := Dest, Srcs := [] }

/-- Modelled from the spec: `addSource` belongs to the `Inst` base class in
`IceInst.h`, not among the sources. The spec: construction appends sources in a
fixed declared order, which is the order the consumers see. The operand is added
after the sources already there; the declared capacity is checked, so that adding
a source beyond `Maxsrcs` fails. -/
def addSource (I : InstARM32) (Src : Operand) : Option InstARM32 :=
  if I.Srcs.length < I.MaxSrcs then some { I with Srcs := I.Srcs ++ [Src] }
  else none

/-- The accessor `getDest()` of the base class. -/
def getDest (I : InstARM32) : Option Variable := I.Dest

/-- The number of sources, `getSrcSize()` of the base class. -/
def getSrcSize (I : InstARM32) : Nat := I.Srcs.length

end InstARM32

/-- A predicable ARM instruction, `InstARM32Pred`: an `InstARM32` with a
predicate. -/
structure InstARM32Pred (Cond : Type) extends InstARM32 where
  Predicate : Cond
deriving DecidableEq

namespace InstARM32Pred

variable {Cond : Type}

/-- The constructor `InstARM32Pred(Func, Kind, Maxsrcs, Dest, Predicate)`: the
`InstARM32` constructor, then `Predicate(Predicate)`. -/
def construct (Kind : InstARM32.InstKindARM32) (Maxsrcs : Nat) (Dest : Option Variable)
    (Predicate : Cond) : InstARM32Pred Cond :=
  { toInstARM32 := InstARM32.construct Kind Maxsrcs Dest, Predicate := Predicate }

/-- The base class's `addSource` on a predicable instruction. -/
def addSource (I : InstARM32Pred Cond) (Src : Operand) : Option (InstARM32Pred Cond) :=
  (I.toInstARM32.addSource Src).map (fun J => { I with toInstARM32 := J })

end InstARM32Pred

/-! ### Instruction shape templates

Each template's `create` passes its arguments to the private constructor, which
calls the base constructor with the template's kind `K`, the declared source
capacity and the destination, and then adds the sources one by one. -/

namespace InstARM32UnaryopGPR

/-- Instructions of the form x := op(y):
`InstARM32Pred(Func, K, 1, Dest, Predicate)`, then `addSource(Src)`. -/
def create {Cond : Type} (K : InstARM32.InstKindARM32) (Dest : Variable) (Src : Operand)
    (Predicate : Cond) : Option (InstARM32Pred Cond) :=
  (InstARM32Pred.construct K 1 (some Dest) Predicate).addSource Src

end InstARM32UnaryopGPR

namespace InstARM32UnaryopFP

/-- Instructions of the form x := op(y), for vector/FP:
`InstARM32Pred(Func, K, 1, Dest, Predicate)`, then `addSource(Src)`, the source
being a variable. -/
def create {Cond : Type} (K : InstARM32.InstKindARM32) (Dest Src : Variable)
    (Predicate : Cond) : Option (InstARM32Pred Cond) :=
  (InstARM32Pred.construct K 1 (some Dest) Predicate).addSource (.Var Src)

end InstARM32UnaryopFP

namespace InstARM32TwoAddrGPR

/-- Instructions of the form x := x op y:
`InstARM32Pred(Func, K, 2, Dest, Predicate)`, then `addSource(Dest)` and
`addSource(Src)`. -/
def create {Cond : Type} (K : InstARM32.InstKindARM32) (Dest : Variable) (Src : Operand)
    (Predicate : Cond) : Option (InstARM32Pred Cond) :=
  ((InstARM32Pred.construct K 2 (some Dest) Predicate).addSource (.Var Dest)).bind
    (fun I => I.addSource Src)

end InstARM32TwoAddrGPR

namespace InstARM32LoadBase

/-- Base class for load instructions:
`InstARM32Pred(Func, K, 1, Dest, Predicate)`, then `addSource(Source)`. -/
def create {Cond : Type} (K : InstARM32.InstKindARM32) (Dest : Variable) (Source : Operand)
    (Predicate : Cond) : Option (InstARM32Pred Cond) :=
  (InstARM32Pred.construct K 1 (some Dest) Predicate).addSource Source

end InstARM32LoadBase

/-- An `InstARM32ThreeAddrGPR`: a predicable instruction with the `SetFlags`
field. -/
structure InstARM32ThreeAddrGPR (Cond : Type) extends InstARM32Pred Cond where
  SetFlags : Bool
deriving DecidableEq

namespace InstARM32ThreeAddrGPR

/-- Instructions of the form x := y op z, which may set the status flags:
`InstARM32Pred(Func, K, 2, Dest, Predicate), SetFlags(SetFlags)`, then
`addSource(Src0)` and `addSource(Src1)`. -/
def create {Cond : Type} (K : InstARM32.InstKindARM32) (Dest Src0 : Variable)
    (Src1 : Operand) (Predicate : Cond) (SetFlags : Bool) :
    Option (InstARM32ThreeAddrGPR Cond) :=
  (((InstARM32Pred.construct K 2 (some Dest) Predicate).addSource (.Var Src0)).bind
    (fun I => I.addSource Src1)).map
    (fun I => { toInstARM32Pred := I, SetFlags := SetFlags })

end InstARM32ThreeAddrGPR

namespace InstARM32ThreeAddrFP

/-- Instructions of the form x := y op z, for vector/FP, left unconditional:
`InstARM32(Func, K, 2, Dest)`, then `addSource(Src0)` and `addSource(Src1)`. -/
def create (K : InstARM32.InstKindARM32) (Dest Src0 Src1 : Variable) : Option InstARM32 :=
  ((InstARM32.construct K 2 (some Dest)).addSource (.Var Src0)).bind
    (fun I => I.addSource (.Var Src1))

end InstARM32ThreeAddrFP

namespace InstARM32FourAddrGPR

/-- Instructions of the form x := a op1 (y op2 z), e.g. multiply accumulate:
`InstARM32Pred(Func, K, 3, Dest, Predicate)`, then `addSource(Src0)`,
`addSource(Src1)` and `addSource(Src2)`. -/
def create {Cond : Type} (K : InstARM32.InstKindARM32) (Dest Src0 Src1 Src2 : Variable)
    (Predicate : Cond) : Option (InstARM32Pred Cond) :=
  (((InstARM32Pred.construct K 3 (some Dest) Predicate).addSource (.Var Src0)).bind
    (fun I => I.addSource (.Var Src1))).bind
    (fun I => I.addSource (.Var Src2))

end InstARM32FourAddrGPR

namespace InstARM32CmpLike

/-- Instructions of the form x cmpop y (setting flags):
`InstARM32Pred(Func, K, 2, nullptr, Predicate)`, then `addSource(Src0)` and
`addSource(Src1)`. -/
def create {Cond : Type} (K : InstARM32.InstKindARM32) (Src0 : Variable) (Src1 : Operand)
    (Predicate : Cond) : Option (InstARM32Pred Cond) :=
  ((InstARM32Pred.construct K 2 none Predicate).addSource (.Var Src0)).bind
    (fun I => I.addSource Src1)

end InstARM32CmpLike

/-- The instruction `InstARM32Movt`, `InstARM32TwoAddrGPR<InstARM32::Movt>`:
"MovT leaves the bottom bits alone so dest is also a source". -/
def InstARM32Movt.create {Cond : Type} (Dest : Variable) (Src : Operand) (Predicate : Cond) :
    Option (InstARM32Pred Cond) :=
  InstARM32TwoAddrGPR.create .Movt Dest Src Predicate

/-- An `InstARM32Mov`: a predicable instruction with the field `DestHi`, null
unless the move has two destinations. -/
structure InstARM32Mov (Cond : Type) extends InstARM32Pred Cond where
  DestHi : Option Variable
deriving DecidableEq

namespace InstARM32Mov

variable {Cond : Type}

/-- The three shapes of a multi-part move with their operands, as the spec lists
them and as the header names them in `emitSingleDestSingleSource`,
`emitSingleDestMultiSource` and `emitMultiDestSingleSource`. -/
inductive Parts where
  | SingleDestSingleSource (Dest : Variable) (Src : Operand)
  | SingleDestMultiSource (Dest : Variable) (SrcLo SrcHi : Operand)
  | MultiDestSingleSource (DestLo DestHi : Variable) (Src : Operand)
deriving DecidableEq

/-- Modelled from the spec: the body of the private constructor
`InstARM32Mov(Func, Dest, Src, Predicate)` is in `IceInstARM32.cpp`, which is
not among the sources. The spec: a multi-part move may be
single-destination/single-source, single-destination/multi-source (assembling a
double-precision value from two single registers) or
multi-destination/single-source (splitting a double into two singles); which
shape applies is determined at construction and fixed thereafter. How the shape
is read off `Dest` and `Src` is not in the header (the class of values held in
two registers is declared elsewhere), so it is the parameter `Split`. The
constructor fills the destination, `DestHi` and the sources for that shape,
with a source capacity of 2. -/
def construct (Split : Variable → Operand → Parts) (Dest : Variable) (Src : Operand)
    (Predicate : Cond) : Option (InstARM32Mov Cond) :=
  match Split Dest Src with
  | .SingleDestSingleSource D S =>
    ((InstARM32Pred.construct .Mov 2 (some D) Predicate).addSource S).map
      (fun I => { toInstARM32Pred := I, DestHi := none })
  | .SingleDestMultiSource D SLo SHi =>
    (((InstARM32Pred.construct .Mov 2 (some D) Predicate).addSource SLo).bind
      (fun I => I.addSource SHi)).map
      (fun I => { toInstARM32Pred := I, DestHi := none })
  | .MultiDestSingleSource DLo DHi S =>
    ((InstARM32Pred.construct .Mov 2 (some DLo) Predicate).addSource S).map
      (fun I => { toInstARM32Pred := I, DestHi := some DHi })

/-- The factory `create(Func, Dest, Src, Predicate)`, which passes its arguments
to the constructor. -/
def create (Split : Variable → Operand → Parts) (Dest : Variable) (Src : Operand)
    (Predicate : Cond) : Option (InstARM32Mov Cond) :=
  construct Split Dest Src Predicate

/-- The query `isMultiDest()`: `DestHi != nullptr`. -/
def isMultiDest (I : InstARM32Mov Cond) : Bool := I.DestHi.isSome

/-- The query `isMultiSource()`: it asserts `getSrcSize() == 1 || getSrcSize() == 2`
and returns `getSrcSize() == 2`; `none` is the failed assertion. -/
def isMultiSource (I : InstARM32Mov Cond) : Option Bool :=
  if I.getSrcSize = 1 ∨ I.getSrcSize = 2 then some (I.getSrcSize == 2) else none

end InstARM32Mov

/-! ### Operand kinds

The kind of an operand is the value of an enumerator of `Operand::OperandKind`;
`OperandKindARM32` continues that enumeration after `Operand::kTarget`, which is
declared in `IceOperand.h`, not among the sources, and is the parameter
`kTarget` below. Each `classof` reads `Operand->getKind()`, here its argument
`Kind`. -/

namespace OperandARM32

/-- The enumerator `k__Start = Operand::kTarget`. -/
def k__Start (kTarget : Nat) : Nat := kTarget

/-- The enumerator `kMem`, the one after `k__Start`. -/
def kMem (kTarget : Nat) : Nat := k__Start kTarget + 1

/-- The enumerator `kFlexStart`, the one after `kMem`. -/
def kFlexStart (kTarget : Nat) : Nat := kMem kTarget + 1

/-- The enumerator `kFlexImm = kFlexStart`. -/
def kFlexImm (kTarget : Nat) : Nat := kFlexStart kTarget

/-- The enumerator `kFlexReg`, the one after `kFlexImm`. -/
def kFlexReg (kTarget : Nat) : Nat := kFlexImm kTarget + 1

/-- The enumerator `kFlexEnd = kFlexReg`. -/
def kFlexEnd (kTarget : Nat) : Nat := kFlexReg kTarget

end OperandARM32

/-- The test `OperandARM32Mem::classof`: `Operand->getKind() == kMem`. -/
def OperandARM32Mem.classof (kTarget Kind : Nat) : Bool :=
  Kind == OperandARM32.kMem kTarget

/-- The test `OperandARM32Flex::classof`:
`kFlexStart <= Operand->getKind() && Operand->getKind() <= kFlexEnd`. -/
def OperandARM32Flex.classof (kTarget Kind : Nat) : Bool :=
  decide (OperandARM32.kFlexStart kTarget ≤ Kind) && decide (Kind ≤ OperandARM32.kFlexEnd kTarget)

/-- The test `OperandARM32FlexImm::classof`: `Operand->getKind() == kFlexImm`. -/
def OperandARM32FlexImm.classof (kTarget Kind : Nat) : Bool :=
  Kind == OperandARM32.kFlexImm kTarget

/-- The test `OperandARM32FlexReg::classof`: `Operand->getKind() == kFlexReg`. -/
def OperandARM32FlexReg.classof (kTarget Kind : Nat) : Bool :=
  Kind == OperandARM32.kFlexReg kTarget

/-- A `StackVariable`: a `Variable` with the base register number `BaseRegNum`,
an `int32_t`. -/
structure StackVariable extends Variable where
  BaseRegNum : Int
deriving DecidableEq

namespace StackVariable

/-- The factory `create(Func, Ty, Index)`: the constructor
`StackVariable(Ty, Index) : Variable(StackVariableKind, Ty, Index)`, with the
member initialiser `BaseRegNum = Variable::NoRegister`. The constant
`Variable::NoRegister` is declared in `IceOperand.h`, not among the sources, and
is the parameter `NoRegister`. -/
def create (NoRegister : Int) (Ty : IceType) (Index : Nat) : StackVariable :=
  { Ty := Ty, Index := Index, BaseRegNum := NoRegister }

/-- The setter `setBaseRegNum(RegNum)`: `BaseRegNum = RegNum`. -/
def setBaseRegNum (V : StackVariable) (RegNum : Int) : StackVariable :=
  { V with BaseRegNum := RegNum }

/-- The accessor `getBaseRegNum()`: `return BaseRegNum`. -/
def getBaseRegNum (V : StackVariable) : Int := V.BaseRegNum

end StackVariable

namespace InstARM32

/-- Modelled from the spec: `getSrc` belongs to the `Inst` base class in
`IceInst.h`, not among the sources. The sources of an instruction are the
ordered list that construction appended; `getSrc(I)` is the source at position
`I`, and `none` stands for a position where there is no source. -/
def getSrc (I : InstARM32) (N : Nat) : Option Operand := I.Srcs[N]?

end InstARM32

namespace InstARM32Mov

variable {Cond : Type}

/-- The query `isRedundantAssign()`:
`!isMultiDest() && !isMultiSource() && checkForRedundantAssign(getDest(), getSrc(0))`,
evaluated from left to right and stopped at the first false operand. The
helper `checkForRedundantAssign` is declared outside this header and is a
parameter. `none` is a failed assertion (the one inside `isMultiSource()`, or a
missing source 0). -/
def isRedundantAssign (checkForRedundantAssign : Option Variable → Operand → Bool)
    (I : InstARM32Mov Cond) : Option Bool :=
  if I.isMultiDest then some false
  else
    match I.isMultiSource with
    | none => none
    | some true => some false
    | some false => (I.getSrc 0).map (fun Src0 => checkForRedundantAssign I.getDest Src0)

end InstARM32Mov

/-! ## Rotations -/

/-- The rotation written with division and remainder: the low `k` bits move to
the top, the remaining bits move down. -/
theorem rotr32_eq_add (x k : Nat) (hk : k ≤ 32) :
    rotr32 x k = (x % 2 ^ 32 % 2 ^ k) * 2 ^ (32 - k) + x % 2 ^ 32 / 2 ^ k := by
  unfold rotr32
  have hy : x % 2 ^ 32 < 2 ^ 32 := Nat.mod_lt _ (by norm_num)
  generalize x % 2 ^ 32 = y at hy ⊢
  have hsplit : (2:Nat) ^ 32 = 2 ^ k * 2 ^ (32 - k) := by
    rw [← pow_add]; congr 1; omega
  have h1 : y <<< (32 - k) % 2 ^ 32 = (y % 2 ^ k) * 2 ^ (32 - k) := by
    rw [Nat.shiftLeft_eq]
    conv_lhs => rw [hsplit]
    exact Nat.mul_mod_mul_right _ _ _
  have h2 : y / 2 ^ k < 2 ^ (32 - k) := by
    apply Nat.div_lt_of_lt_mul
    rw [← hsplit]; exact hy
  rw [h1, Nat.shiftRight_eq_div_pow, Nat.lor_comm, Nat.mul_comm, Nat.mul_add_lt_is_or h2]

/-- Rotating left by `k` is rotating right by `32 - k`. -/
theorem rotl32_eq_rotr32 (x k : Nat) (hk : k ≤ 32) : rotl32 x k = rotr32 x (32 - k) := by
  unfold rotl32 rotr32
  have hkk : 32 - (32 - k) = k := by omega
  rw [hkk, Nat.lor_comm]

/-- A rotated word is a 32-bit word. -/
theorem rotr32_lt (x k : Nat) (hk : k ≤ 32) : rotr32 x k < 2 ^ 32 := by
  rw [rotr32_eq_add x k hk]
  have hsplit : (2:Nat) ^ 32 = 2 ^ k * 2 ^ (32 - k) := by
    rw [← pow_add]; congr 1; omega
  have hy : x % 2 ^ 32 < 2 ^ 32 := Nat.mod_lt _ (by norm_num)
  generalize x % 2 ^ 32 = y at hy ⊢
  have h2 : y / 2 ^ k < 2 ^ (32 - k) := by
    apply Nat.div_lt_of_lt_mul
    rw [← hsplit]; exact hy
  have h3 : y % 2 ^ k < 2 ^ k := Nat.mod_lt _ (by positivity)
  calc y % 2 ^ k * 2 ^ (32 - k) + y / 2 ^ k
      < y % 2 ^ k * 2 ^ (32 - k) + 2 ^ (32 - k) := by omega
    _ = (y % 2 ^ k + 1) * 2 ^ (32 - k) := by ring
    _ ≤ 2 ^ k * 2 ^ (32 - k) := Nat.mul_le_mul_right _ h3
    _ = 2 ^ 32 := hsplit.symm

/-- Rotating right by `k` and then by `32 - k` gives the word back. -/
theorem rotr32_rotr32_compl (x k : Nat) (hk : k ≤ 32) :
    rotr32 (rotr32 x k) (32 - k) = x % 2 ^ 32 := by
  have hlt := rotr32_lt x k hk
  rw [rotr32_eq_add _ (32 - k) (by omega), Nat.mod_eq_of_lt hlt, rotr32_eq_add x k hk]
  have hy : x % 2 ^ 32 < 2 ^ 32 := Nat.mod_lt _ (by norm_num)
  generalize x % 2 ^ 32 = y at hy ⊢
  have hsplit : (2:Nat) ^ 32 = 2 ^ k * 2 ^ (32 - k) := by
    rw [← pow_add]; congr 1; omega
  have h2 : y / 2 ^ k < 2 ^ (32 - k) := by
    apply Nat.div_lt_of_lt_mul
    rw [← hsplit]; exact hy
  have hkk : 32 - (32 - k) = k := by omega
  have hpos : 0 < 2 ^ (32 - k) := by positivity
  rw [hkk, Nat.mul_comm (y % 2 ^ k), Nat.mul_add_mod, Nat.mod_eq_of_lt h2,
    Nat.mul_add_div hpos, Nat.div_eq_of_lt h2, Nat.add_zero, Nat.mul_comm]
  exact Nat.div_add_mod y (2 ^ k)

/-- Rotating left and then right by the same amount gives the word back. -/
theorem rotr32_rotl32 (x k : Nat) (hk : k ≤ 32) :
    rotr32 (rotl32 x k) k = x % 2 ^ 32 := by
  have h := rotr32_rotr32_compl x (32 - k) (by omega)
  have hkk : 32 - (32 - k) = k := by omega
  rw [hkk] at h
  rw [rotl32_eq_rotr32 x k hk]; exact h

/-- Rotating right and then left by the same amount gives the word back. -/
theorem rotl32_rotr32 (x k : Nat) (hk : k ≤ 32) :
    rotl32 (rotr32 x k) k = x % 2 ^ 32 := by
  rw [rotl32_eq_rotr32 _ k hk]; exact rotr32_rotr32_compl x k hk

/-! ## `canHoldImm` -/

namespace OperandARM32FlexImm

/-- Whatever `canHoldImm` fills in is an 8-bit value and a rotate amount of at
most 15 that reproduce the 32-bit input. -/
theorem canHoldImm_sound (x : Nat) (e : FlexImmEncoding) (h : canHoldImm x = some e) :
    e.Immed_8 ≤ 255 ∧ e.RotateAmt ≤ 15 ∧ rotr32 e.Immed_8 (2 * e.RotateAmt) = x % 2 ^ 32 := by
  unfold canHoldImm at h
  rw [Option.map_eq_some'] at h
  obtain ⟨Rot, hfind, rfl⟩ := h
  have hp := List.find?_some hfind
  have hmem := List.mem_of_find?_eq_some hfind
  rw [List.mem_range] at hmem
  have hle : rotl32 x (2 * Rot) ≤ 255 := by simpa using hp
  have h15 : Rot ≤ 15 := by omega
  exact ⟨hle, h15, rotr32_rotl32 x (2 * Rot) (by omega)⟩

/-- An input that has a rotated-8-bit encoding is accepted. -/
theorem canHoldImm_complete (value rotate : Nat) (hv : value ≤ 255) (hr : rotate ≤ 15) :
    ∃ e, canHoldImm (rotr32 value (2 * rotate)) = some e := by
  have hback : rotl32 (rotr32 value (2 * rotate)) (2 * rotate) = value := by
    rw [rotl32_rotr32 _ _ (by omega)]
    exact Nat.mod_eq_of_lt (by omega)
  cases hfind : (List.range 16).find?
      (fun Rot => decide (rotl32 (rotr32 value (2 * rotate)) (2 * Rot) ≤ 255)) with
  | none =>
    rw [List.find?_eq_none] at hfind
    have hno := hfind rotate (List.mem_range.mpr (by omega))
    rw [hback] at hno
    simp at hno
    omega
  | some Rot =>
    exact ⟨_, by unfold canHoldImm; rw [hfind]; rfl⟩

end OperandARM32FlexImm

/-! ## Branch factories -/

namespace InstARM32Br

variable {Cond : Type} [DecidableEq Cond]

/-- Under a predicate other than AL the two-node `create` passes its assertion
and builds the branch. -/
theorem createTwoNodes_of_ne (AL : Cond) (T F : Option CfgNode) (P : Cond) (hP : P ≠ AL) :
    createTwoNodes AL T F P = some (construct T F none P) := by
  simp [createTwoNodes, hP]

/-- Under a predicate other than AL the fallthrough `create` passes its assertion
and builds the branch. -/
theorem createFallthrough_of_ne (AL : Cond) (T : Option CfgNode) (P : Cond) (hP : P ≠ AL) :
    createFallthrough AL T P = some (construct T none none P) := by
  simp [createFallthrough, hP]

end InstARM32Br

/-! ## Claims -/

/-- C1: for every `value ≤ 255` and `rotate ≤ 15`, `canHoldImm` applied to the
32-bit word `rotr32 value (2 * rotate)` returns true, and the out-parameters it
fills in satisfy `Immed_8 ≤ 255`, `RotateAmt ≤ 15` and
`rotr32 Immed_8 (2 * RotateAmt)` equal to that same input word. -/
theorem canHoldImm_roundtrip (value rotate : Nat) (hv : value ≤ 255) (hr : rotate ≤ 15) :
    ∃ e, OperandARM32FlexImm.canHoldImm (rotr32 value (2 * rotate)) = some e ∧
      e.Immed_8 ≤ 255 ∧ e.RotateAmt ≤ 15 ∧
      rotr32 e.Immed_8 (2 * e.RotateAmt) = rotr32 value (2 * rotate) := by
  obtain ⟨e, he⟩ := OperandARM32FlexImm.canHoldImm_complete value rotate hv hr
  obtain ⟨h8, h15, hrt⟩ := OperandARM32FlexImm.canHoldImm_sound _ e he
  refine ⟨e, he, h8, h15, ?_⟩
  rw [hrt]
  exact Nat.mod_eq_of_lt (rotr32_lt _ _ (by omega))

/-- Witness of C1 at `value = 0xFF`, `rotate = 4` (the word `0xFF000000`). -/
theorem canHoldImm_roundtrip_witness :
    ∃ e, OperandARM32FlexImm.canHoldImm (rotr32 0xFF (2 * 4)) = some e ∧
      e.Immed_8 ≤ 255 ∧ e.RotateAmt ≤ 15 ∧
      rotr32 e.Immed_8 (2 * e.RotateAmt) = rotr32 0xFF (2 * 4) :=
  canHoldImm_roundtrip 0xFF 4 (by decide) (by decide)

/-- C2: a 32-bit `x` that no pair `(value, rotate)` with `value ≤ 255` and
`rotate ≤ 15` reproduces as `rotr32 value (2 * rotate)` is rejected by
`canHoldImm`; in particular `canHoldImm 0x1FF` is false, while
`canHoldImm 0xFF000000` is true with `Immed_8 = 0xFF` and `RotateAmt = 4`. -/
theorem canHoldImm_rejects_unencodable :
    (∀ x : Nat, x < 2 ^ 32 →
      (¬ ∃ value rotate : Nat, value ≤ 255 ∧ rotate ≤ 15 ∧ rotr32 value (2 * rotate) = x) →
      OperandARM32FlexImm.canHoldImm x = none) ∧
    OperandARM32FlexImm.canHoldImm 0x1FF = none ∧
    OperandARM32FlexImm.canHoldImm 0xFF000000 = some { RotateAmt := 4, Immed_8 := 0xFF } := by
  refine ⟨?_, by decide, by decide⟩
  intro x hx hno
  cases hc : OperandARM32FlexImm.canHoldImm x with
  | none => rfl
  | some e =>
    exfalso
    obtain ⟨h8, h15, hrt⟩ := OperandARM32FlexImm.canHoldImm_sound x e hc
    rw [Nat.mod_eq_of_lt hx] at hrt
    exact hno ⟨e.Immed_8, e.RotateAmt, h8, h15, hrt⟩

/-- Witness of C2: `0x1FF` is a 32-bit word with no rotated-8-bit encoding (an
encoding would be accepted, and `0x1FF` is not), so the general statement
applies to it. -/
theorem canHoldImm_rejects_unencodable_witness :
    OperandARM32FlexImm.canHoldImm 0x1FF = none :=
  canHoldImm_rejects_unencodable.1 0x1FF (by decide) (by
    rintro ⟨value, rotate, hv, hr, hx⟩
    obtain ⟨e, he⟩ := OperandARM32FlexImm.canHoldImm_complete value rotate hv hr
    rw [hx] at he
    have hnone : OperandARM32FlexImm.canHoldImm 0x1FF = none := by decide
    rw [hnone] at he
    cases he)

/-- C3: the six `AddrMode` values keep the P/U/W layout with P = bit 24,
U = bit 23, W = bit 21: `Offset = P|U`, `PreIndex = P|U|W`, `PostIndex = U`,
`NegOffset = P`, `NegPreIndex = P|W`, `NegPostIndex = 0`; the six values are
pairwise distinct, none has a bit set outside 21, 23, 24, and each Neg mode is
its positive counterpart with exactly the U bit cleared. -/
theorem AddrMode_PUW_layout :
    (OperandARM32Mem.AddrMode.Offset.val = 1 <<< 24 ||| 1 <<< 23 ∧
      OperandARM32Mem.AddrMode.PreIndex.val = 1 <<< 24 ||| 1 <<< 23 ||| 1 <<< 21 ∧
      OperandARM32Mem.AddrMode.PostIndex.val = 1 <<< 23 ∧
      OperandARM32Mem.AddrMode.NegOffset.val = 1 <<< 24 ∧
      OperandARM32Mem.AddrMode.NegPreIndex.val = 1 <<< 24 ||| 1 <<< 21 ∧
      OperandARM32Mem.AddrMode.NegPostIndex.val = 0) ∧
    Function.Injective OperandARM32Mem.AddrMode.val ∧
    (∀ (m : OperandARM32Mem.AddrMode) (i : Nat),
      m.val.testBit i = true → i = 21 ∨ i = 23 ∨ i = 24) ∧
    (OperandARM32Mem.AddrMode.Offset.val.testBit 23 = true ∧
      OperandARM32Mem.AddrMode.NegOffset.val =
        OperandARM32Mem.AddrMode.Offset.val ^^^ 1 <<< 23) ∧
    (OperandARM32Mem.AddrMode.PreIndex.val.testBit 23 = true ∧
      OperandARM32Mem.AddrMode.NegPreIndex.val =
        OperandARM32Mem.AddrMode.PreIndex.val ^^^ 1 <<< 23) ∧
    (OperandARM32Mem.AddrMode.PostIndex.val.testBit 23 = true ∧
      OperandARM32Mem.AddrMode.NegPostIndex.val =
        OperandARM32Mem.AddrMode.PostIndex.val ^^^ 1 <<< 23) := by
  refine ⟨by decide, ?_, ?_, by decide, by decide, by decide⟩
  · intro a b h
    cases a <;> cases b <;> first | rfl | (exact absurd h (by decide))
  · intro m i h
    have hlt : i < 25 := by
      by_contra hge
      have hm : m.val < 2 ^ i :=
        Nat.lt_of_lt_of_le (show m.val < 2 ^ 25 by cases m <;> decide)
          (Nat.pow_le_pow_right (by norm_num) (by omega))
      rw [Nat.testBit_lt_two_pow hm] at h
      cases h
    interval_cases i <;> first | omega | (exfalso; revert h; cases m <;> decide)

/-- C4: `isNegAddrMode()` depends on the addressing mode alone: it is true
exactly for `NegOffset`, `NegPreIndex`, `NegPostIndex`, false exactly for
`Offset`, `PreIndex`, `PostIndex`, and two operands with the same mode give the
same answer whatever their base, index, shift and immediate offset are. -/
theorem isNegAddrMode_mode_only (M : OperandARM32Mem) :
    (M.isNegAddrMode = true ↔
      M.Mode = .NegOffset ∨ M.Mode = .NegPreIndex ∨ M.Mode = .NegPostIndex) ∧
    (M.isNegAddrMode = false ↔
      M.Mode = .Offset ∨ M.Mode = .PreIndex ∨ M.Mode = .PostIndex) ∧
    (∀ M2 : OperandARM32Mem, M2.Mode = M.Mode → M2.isNegAddrMode = M.isNegAddrMode) := by
  refine ⟨?_, ?_, ?_⟩
  · obtain ⟨Ty, Base, ImmOffset, Index, ShiftOp, ShiftAmt, Mode⟩ := M
    cases Mode <;> simp [OperandARM32Mem.isNegAddrMode] <;> decide
  · obtain ⟨Ty, Base, ImmOffset, Index, ShiftOp, ShiftAmt, Mode⟩ := M
    cases Mode <;> simp [OperandARM32Mem.isNegAddrMode] <;> decide
  · intro M2 h
    unfold OperandARM32Mem.isNegAddrMode
    rw [h]

/-- Witness of C4: with the positive mode `Offset`, an operand whose immediate
offset is `-4` and one whose immediate offset is `4` give the same answer. -/
theorem isNegAddrMode_mode_only_witness :
    OperandARM32Mem.isNegAddrMode
        { Ty := 4, Base := ⟨4, 0⟩, ImmOffset := some ⟨-4⟩, Index := none,
          ShiftOp := OperandARM32.kNoShift, ShiftAmt := 0, Mode := .Offset } =
      OperandARM32Mem.isNegAddrMode
        { Ty := 4, Base := ⟨4, 0⟩, ImmOffset := some ⟨4⟩, Index := none,
          ShiftOp := OperandARM32.kNoShift, ShiftAmt := 0, Mode := .Offset } :=
  (isNegAddrMode_mode_only _).2.2 _ rfl

/-- C5: constructing a memory operand fails when both an index register and an
immediate offset are supplied, and fails when neither is supplied (`create`
with a null `ImmOffset`, or with a null `Index`); every memory operand that is
constructed has exactly one of `getOffset()` and `getIndex()` present, and
`isRegReg()` is true iff it is the index that is present. -/
theorem OperandARM32Mem_offset_xor_index (Ty : IceType) (Base : Variable)
    (ShiftOp : OperandARM32.ShiftKind) (ShiftAmt : Nat) (Mode : OperandARM32Mem.AddrMode) :
    (∀ (o : ConstantInteger32) (i : Variable),
      OperandARM32Mem.construct Ty Base (some o) (some i) ShiftOp ShiftAmt Mode = none) ∧
    OperandARM32Mem.construct Ty Base none none ShiftOp ShiftAmt Mode = none ∧
    OperandARM32Mem.createImm Ty Base none Mode = none ∧
    OperandARM32Mem.createReg Ty Base none ShiftOp ShiftAmt Mode = none ∧
    (∀ (o : Option ConstantInteger32) (i : Option Variable) (M : OperandARM32Mem),
      OperandARM32Mem.construct Ty Base o i ShiftOp ShiftAmt Mode = some M →
        M.getOffset = o ∧ M.getIndex = i ∧
        ((M.getOffset.isSome = true ∧ M.getIndex = none) ∨
          (M.getOffset = none ∧ M.getIndex.isSome = true)) ∧
        (M.isRegReg = true ↔ M.getIndex.isSome = true ∧ M.getOffset = none)) ∧
    (∀ o : ConstantInteger32, ∃ M,
      OperandARM32Mem.createImm Ty Base (some o) Mode = some M ∧
        M.getOffset = some o ∧ M.getIndex = none ∧ M.isRegReg = false) ∧
    (∀ i : Variable, ∃ M,
      OperandARM32Mem.createReg Ty Base (some i) ShiftOp ShiftAmt Mode = some M ∧
        M.getOffset = none ∧ M.getIndex = some i ∧ M.isRegReg = true) := by
  refine ⟨fun _ _ => rfl, rfl, rfl, rfl, ?_, fun o => ⟨_, rfl, rfl, rfl, rfl⟩,
    fun i => ⟨_, rfl, rfl, rfl, rfl⟩⟩
  intro o i M h
  cases o <;> cases i <;> simp [OperandARM32Mem.construct] at h
  · subst h
    simp [OperandARM32Mem.getOffset, OperandARM32Mem.getIndex, OperandARM32Mem.isRegReg]
  · subst h
    simp [OperandARM32Mem.getOffset, OperandARM32Mem.getIndex, OperandARM32Mem.isRegReg]

/-- Witness of C5: the operand `[r0, #8]` is constructed, so the statement
about constructed operands applies to it; it has an offset and no index. -/
theorem OperandARM32Mem_offset_xor_index_witness :
    OperandARM32Mem.getOffset
        { Ty := 4, Base := ⟨4, 0⟩, ImmOffset := some ⟨8⟩, Index := none,
          ShiftOp := OperandARM32.kNoShift, ShiftAmt := 0, Mode := .Offset } = some ⟨8⟩ :=
  ((OperandARM32Mem_offset_xor_index 4 ⟨4, 0⟩ OperandARM32.kNoShift 0 .Offset).2.2.2.2.1
    (some ⟨8⟩) none _ rfl).1

/-- C8: for every branch, `getEmitInstCount()` is the number of the three fields
`Label`, `TargetTrue`, `TargetFalse` that are populated, hence at most 3; it is 2
for a branch made by the two-block `create` and 1 for a branch made by the
unconditional, the fallthrough or the label `create`, with non-null targets. -/
theorem getEmitInstCount_counts_populated {Cond : Type} [DecidableEq Cond] (AL : Cond) :
    (∀ B : InstARM32Br Cond,
      B.getEmitInstCount =
          [B.Label.isSome, B.TargetTrue.isSome, B.TargetFalse.isSome].count true ∧
        B.getEmitInstCount ≤ 3) ∧
    (∀ (T F : CfgNode) (P : Cond), P ≠ AL →
      ∃ B, InstARM32Br.createTwoNodes AL (some T) (some F) P = some B ∧
        B.getEmitInstCount = 2) ∧
    (∀ T : CfgNode, (InstARM32Br.createUnconditional AL (some T)).getEmitInstCount = 1) ∧
    (∀ (T : CfgNode) (P : Cond), P ≠ AL →
      ∃ B, InstARM32Br.createFallthrough AL (some T) P = some B ∧
        B.getEmitInstCount = 1) ∧
    (∀ (L : InstARM32Label) (P : Cond),
      (InstARM32Br.createLabel (some L) P).getEmitInstCount = 1) := by
  refine ⟨?_, ?_, fun _ => rfl, ?_, fun _ _ => rfl⟩
  · rintro ⟨P, T, F, L⟩
    cases T <;> cases F <;> cases L <;>
      simp [InstARM32Br.getEmitInstCount, InstARM32Br.getTargetTrue,
        InstARM32Br.getTargetFalse]
  · intro T F P hP
    exact ⟨_, InstARM32Br.createTwoNodes_of_ne AL (some T) (some F) P hP, rfl⟩
  · intro T P hP
    exact ⟨_, InstARM32Br.createFallthrough_of_ne AL (some T) P hP, rfl⟩

/-- Witness of C8, with the conditions read as numbers and `AL` as 14: the
two-block `create` under predicate 0 gives a branch counted as 2. -/
theorem getEmitInstCount_counts_populated_witness :
    ∃ B, InstARM32Br.createTwoNodes (14 : Nat) (some ⟨1⟩) (some ⟨2⟩) 0 = some B ∧
      B.getEmitInstCount = 2 :=
  (getEmitInstCount_counts_populated (14 : Nat)).2.1 ⟨1⟩ ⟨2⟩ 0 (by decide)

/-- C9: block targets and the label target are mutually exclusive in every
branch produced by the four `create` variants: the three block-target variants
give a branch with no `Label`, and the label variant gives a branch with
`TargetTrue` and `TargetFalse` both absent, for every predicate including AL. -/
theorem create_targets_exclusive {Cond : Type} [DecidableEq Cond] (AL : Cond) :
    (∀ (T F : Option CfgNode) (P : Cond) (B : InstARM32Br Cond),
      InstARM32Br.createTwoNodes AL T F P = some B → B.Label = none) ∧
    (∀ (T F : Option CfgNode) (P : Cond), P ≠ AL →
      ∃ B, InstARM32Br.createTwoNodes AL T F P = some B ∧ B.Label = none) ∧
    (∀ T : Option CfgNode, (InstARM32Br.createUnconditional AL T).Label = none) ∧
    (∀ (T : Option CfgNode) (P : Cond) (B : InstARM32Br Cond),
      InstARM32Br.createFallthrough AL T P = some B → B.Label = none) ∧
    (∀ (T : Option CfgNode) (P : Cond), P ≠ AL →
      ∃ B, InstARM32Br.createFallthrough AL T P = some B ∧ B.Label = none) ∧
    (∀ (L : Option InstARM32Label) (P : Cond),
      (InstARM32Br.createLabel L P).TargetTrue = none ∧
        (InstARM32Br.createLabel L P).TargetFalse = none) ∧
    (InstARM32Br.createLabel (none : Option InstARM32Label) AL).TargetTrue = none ∧
    (InstARM32Br.createLabel (none : Option InstARM32Label) AL).TargetFalse = none := by
  refine ⟨?_, ?_, fun _ => rfl, ?_, ?_, fun _ _ => ⟨rfl, rfl⟩, rfl, rfl⟩
  · intro T F P B h
    unfold InstARM32Br.createTwoNodes at h
    split at h
    · cases h
    · cases h; rfl
  · intro T F P hP
    exact ⟨_, InstARM32Br.createTwoNodes_of_ne AL T F P hP, rfl⟩
  · intro T P B h
    unfold InstARM32Br.createFallthrough at h
    split at h
    · cases h
    · cases h; rfl
  · intro T P hP
    exact ⟨_, InstARM32Br.createFallthrough_of_ne AL T P hP, rfl⟩

/-- Witness of C9, with the conditions read as numbers and `AL` as 14: the
fallthrough `create` under predicate 1 gives a branch, and it has no label. -/
theorem create_targets_exclusive_witness :
    ∃ B, InstARM32Br.createFallthrough (14 : Nat) (some ⟨7⟩) 1 = some B ∧ B.Label = none :=
  (create_targets_exclusive (14 : Nat)).2.2.2.2.1 (some ⟨7⟩) 1 (by decide)

/-- C10: an unconditional two-target branch is never constructed: the two-node
`create` fails (assertion) exactly when the predicate is AL, and for every other
predicate it yields a branch with that predicate, `TargetTrue` and `TargetFalse`
as given, for which `isUnconditionalBranch()` is false. -/
theorem createTwoNodes_never_unconditional {Cond : Type} [DecidableEq Cond] (AL : Cond)
    (TargetTrue TargetFalse : Option CfgNode) (Predicate : Cond) :
    (InstARM32Br.createTwoNodes AL TargetTrue TargetFalse Predicate = none ↔
      Predicate = AL) ∧
    (Predicate ≠ AL →
      ∃ B, InstARM32Br.createTwoNodes AL TargetTrue TargetFalse Predicate = some B ∧
        B.getPredicate = Predicate ∧ B.getTargetTrue = TargetTrue ∧
        B.getTargetFalse = TargetFalse ∧ B.isUnconditionalBranch AL = false) ∧
    (∀ B, InstARM32Br.createTwoNodes AL TargetTrue TargetFalse Predicate = some B →
      B.isUnconditionalBranch AL = false) := by
  by_cases hP : Predicate = AL
  · refine ⟨⟨fun _ => hP, fun _ => by simp [InstARM32Br.createTwoNodes, hP]⟩,
      fun h => absurd hP h, ?_⟩
    intro B h
    simp [InstARM32Br.createTwoNodes, hP] at h
  · have hun : InstARM32Br.isUnconditionalBranch AL
        (InstARM32Br.construct TargetTrue TargetFalse none Predicate) = false := by
      simp [InstARM32Br.isUnconditionalBranch, InstARM32Br.getPredicate,
        InstARM32Br.construct, hP]
    have hc := InstARM32Br.createTwoNodes_of_ne AL TargetTrue TargetFalse Predicate hP
    refine ⟨⟨fun h => ?_, fun h => absurd h hP⟩, fun _ => ⟨_, hc, rfl, rfl, rfl, hun⟩, ?_⟩
    · rw [hc] at h; cases h
    · intro B h
      rw [hc] at h
      cases h
      exact hun

/-- Witness of C10, with the conditions read as numbers and `AL` as 14: under
predicate 0 the two-node `create` yields a conditional branch to the two nodes
given. -/
theorem createTwoNodes_never_unconditional_witness :
    ∃ B, InstARM32Br.createTwoNodes (14 : Nat) (some ⟨1⟩) (some ⟨2⟩) 0 = some B ∧
      B.getPredicate = 0 ∧ B.getTargetTrue = some ⟨1⟩ ∧
      B.getTargetFalse = some ⟨2⟩ ∧ B.isUnconditionalBranch 14 = false :=
  (createTwoNodes_never_unconditional (14 : Nat) (some ⟨1⟩) (some ⟨2⟩) 0).2.1 (by decide)

/-- C11: for every node `Target`, the unconditional `create(Func, Target)` yields
a branch whose `getTargetFalse()` is `Target`, whose `getTargetTrue()` is absent,
which has no label, whose predicate is AL and for which
`isUnconditionalBranch()` is true; and for every branch,
`isUnconditionalBranch()` is true iff `getPredicate()` is AL. -/
theorem createUnconditional_shape {Cond : Type} [DecidableEq Cond] (AL : Cond) :
    (∀ Target : CfgNode,
      (InstARM32Br.createUnconditional AL (some Target)).getTargetFalse = some Target ∧
      (InstARM32Br.createUnconditional AL (some Target)).getTargetTrue = none ∧
      (InstARM32Br.createUnconditional AL (some Target)).Label = none ∧
      (InstARM32Br.createUnconditional AL (some Target)).getPredicate = AL ∧
      (InstARM32Br.createUnconditional AL (some Target)).isUnconditionalBranch AL = true) ∧
    (∀ B : InstARM32Br Cond, B.isUnconditionalBranch AL = true ↔ B.getPredicate = AL) := by
  refine ⟨fun Target => ⟨rfl, rfl, rfl, rfl, ?_⟩, fun B => ?_⟩
  · simp [InstARM32Br.isUnconditionalBranch, InstARM32Br.getPredicate,
      InstARM32Br.createUnconditional, InstARM32Br.construct]
  · simp [InstARM32Br.isUnconditionalBranch]

/-- C13: for every two-target conditional branch (`TargetTrue` and `TargetFalse`
present and no label, predicate not AL) and node `next` with `TargetFalse = next`,
`optimizeBranch(next)` eliminates the false edge (`TargetFalse` becomes absent)
while `TargetTrue` and the predicate are preserved unchanged, and
`getEmitInstCount()` drops from 2 to 1. -/
theorem optimizeBranch_drops_false_edge {Cond : Type} [DecidableEq Cond] (AL : Cond)
    (B : InstARM32Br Cond) (T NextNode : CfgNode) (hP : B.getPredicate ≠ AL)
    (hL : B.Label = none) (hT : B.getTargetTrue = some T)
    (hF : B.getTargetFalse = some NextNode) :
    ∃ B2, B.optimizeBranch NextNode = some B2 ∧
      B2.getTargetFalse = none ∧ B2.getTargetTrue = B.getTargetTrue ∧
      B2.getPredicate = B.getPredicate ∧ B2.getPredicate ≠ AL ∧ B2.Label = none ∧
      B.getEmitInstCount = 2 ∧ B2.getEmitInstCount = 1 := by
  obtain ⟨P, TT, TF, L⟩ := B
  simp only [InstARM32Br.getTargetTrue, InstARM32Br.getTargetFalse,
    InstARM32Br.getPredicate] at hP hL hT hF
  subst hL hT hF
  refine ⟨{ Predicate := P, TargetTrue := some T, TargetFalse := none, Label := none },
    ?_, rfl, rfl, rfl, hP, rfl, rfl, rfl⟩
  simp [InstARM32Br.optimizeBranch, InstARM32Br.getTargetTrue, InstARM32Br.getTargetFalse]

/-- Witness of C13, with the conditions read as numbers and `AL` as 14: the
branch to nodes 1 (true) and 2 (false) under predicate 0, optimized with node 2
next, keeps the true target and the predicate and loses the false target. -/
theorem optimizeBranch_drops_false_edge_witness :
    ∃ B2, InstARM32Br.optimizeBranch
        (InstARM32Br.construct (some ⟨1⟩) (some ⟨2⟩) none (0 : Nat)) ⟨2⟩ = some B2 ∧
      B2.getTargetFalse = none ∧ B2.getTargetTrue = some ⟨1⟩ ∧
      B2.getPredicate = 0 ∧ B2.getPredicate ≠ 14 ∧ B2.Label = none ∧
      (InstARM32Br.construct (some ⟨1⟩) (some ⟨2⟩) none (0 : Nat)).getEmitInstCount = 2 ∧
      B2.getEmitInstCount = 1 :=
  optimizeBranch_drops_false_edge (14 : Nat)
    (InstARM32Br.construct (some ⟨1⟩) (some ⟨2⟩) none (0 : Nat)) ⟨1⟩ ⟨2⟩
    (by decide) rfl rfl rfl

/-- C14: for every unconditional branch whose sole block target equals `next`,
`optimizeBranch(next)` removes the branch, so that it contributes zero taken
edges; and for every branch and every `next`, `optimizeBranch(next)` keeps the
invariant that a label target and block targets are never both populated, a
label-targeted branch being left unchanged. -/
theorem optimizeBranch_removes_jump_to_next {Cond : Type} [DecidableEq Cond] (AL : Cond)
    (B : InstARM32Br Cond) (NextNode : CfgNode) :
    (B.isUnconditionalBranch AL = true → B.Label = none → B.getTargetTrue = none →
      B.getTargetFalse = some NextNode →
      B.optimizeBranch NextNode = none ∧
        InstARM32Br.takenEdges (B.optimizeBranch NextNode) = []) ∧
    (∀ B2, B.targetsExclusive → B.optimizeBranch NextNode = some B2 →
      B2.targetsExclusive) ∧
    (B.Label ≠ none → B.optimizeBranch NextNode = some B) := by
  obtain ⟨P, TT, TF, L⟩ := B
  refine ⟨fun _ hL hT hF => ?_, fun B2 hex h => ?_, fun hL => ?_⟩
  · simp only [InstARM32Br.getTargetTrue, InstARM32Br.getTargetFalse] at hL hT hF
    subst hL hT hF
    simp [InstARM32Br.optimizeBranch, InstARM32Br.getTargetTrue,
      InstARM32Br.getTargetFalse, InstARM32Br.takenEdges]
  · cases L with
    | some l =>
      simp [InstARM32Br.optimizeBranch] at h
      subst h
      exact hex
    | none =>
      simp only [InstARM32Br.optimizeBranch, InstARM32Br.getTargetTrue,
        InstARM32Br.getTargetFalse, Option.isSome_none, Bool.false_eq_true, if_false] at h
      split at h
      · split at h
        · cases h
          exact Or.inl rfl
        · cases h
      · cases h
        exact Or.inl rfl
  · cases L with
    | none => exact absurd rfl hL
    | some l => simp [InstARM32Br.optimizeBranch]

/-- Witness of C14, with the conditions read as numbers and `AL` as 14: the
unconditional branch to node 5, optimized with node 5 next, is removed and
leaves no taken edge. -/
theorem optimizeBranch_removes_jump_to_next_witness :
    InstARM32Br.optimizeBranch (InstARM32Br.createUnconditional (14 : Nat) (some ⟨5⟩)) ⟨5⟩ =
        none ∧
      InstARM32Br.takenEdges
        (InstARM32Br.optimizeBranch
          (InstARM32Br.createUnconditional (14 : Nat) (some ⟨5⟩)) ⟨5⟩) = [] :=
  (optimizeBranch_removes_jump_to_next (14 : Nat)
    (InstARM32Br.createUnconditional (14 : Nat) (some ⟨5⟩)) ⟨5⟩).1 rfl rfl rfl rfl

/-- C15: for every two-address instruction (`InstARM32TwoAddrGPR`, e.g. Movt)
created with destination `Dest` and operand `Src`, the destination is `Dest` and
the ordered source list is exactly `[Dest, Src]`: the destination is also
source 0, before `Src`. -/
theorem TwoAddrGPR_dest_is_first_source {Cond : Type} (K : InstARM32.InstKindARM32)
    (Dest : Variable) (Src : Operand) (Predicate : Cond) :
    (∃ I, InstARM32TwoAddrGPR.create K Dest Src Predicate = some I ∧
      I.getDest = some Dest ∧ I.Srcs = [.Var Dest, Src] ∧ I.Srcs[0]? = some (.Var Dest) ∧
      I.Kind = K ∧ I.Predicate = Predicate) ∧
    (∃ I, InstARM32Movt.create Dest Src Predicate = some I ∧
      I.getDest = some Dest ∧ I.Srcs = [.Var Dest, Src]) := by
  exact ⟨⟨_, rfl, rfl, rfl, rfl, rfl, rfl⟩, ⟨_, rfl, rfl, rfl⟩⟩

/-- C16: for every instruction shape template, construction appends the operands
in their declared order, and the number of sources appended equals both the
declared source capacity and the Sources column of the shape table: unary
`[Src]` (1), load-base `[Source]` (1), three-address GPR and FP `[Src0, Src1]`
(2), four-address `[Src0, Src1, Src2]` (3), compare-like `[Src0, Src1]` (2) with
no destination; the source-capacity check of `addSource` never fails. -/
theorem shape_sources_in_declared_order {Cond : Type} (K : InstARM32.InstKindARM32)
    (Dest V0 V1 V2 : Variable) (Src : Operand) (Predicate : Cond) (SetFlags : Bool) :
    (∃ I, InstARM32UnaryopGPR.create K Dest Src Predicate = some I ∧
      I.Srcs = [Src] ∧ I.getSrcSize = 1 ∧ I.MaxSrcs = 1 ∧ I.getDest = some Dest) ∧
    (∃ I, InstARM32UnaryopFP.create K Dest V0 Predicate = some I ∧
      I.Srcs = [.Var V0] ∧ I.getSrcSize = 1 ∧ I.MaxSrcs = 1 ∧ I.getDest = some Dest) ∧
    (∃ I, InstARM32LoadBase.create K Dest Src Predicate = some I ∧
      I.Srcs = [Src] ∧ I.getSrcSize = 1 ∧ I.MaxSrcs = 1 ∧ I.getDest = some Dest) ∧
    (∃ I, InstARM32ThreeAddrGPR.create K Dest V0 Src Predicate SetFlags = some I ∧
      I.Srcs = [.Var V0, Src] ∧ I.getSrcSize = 2 ∧ I.MaxSrcs = 2 ∧
      I.getDest = some Dest) ∧
    (∃ I, InstARM32ThreeAddrFP.create K Dest V0 V1 = some I ∧
      I.Srcs = [.Var V0, .Var V1] ∧ I.getSrcSize = 2 ∧ I.MaxSrcs = 2 ∧
      I.getDest = some Dest) ∧
    (∃ I, InstARM32FourAddrGPR.create K Dest V0 V1 V2 Predicate = some I ∧
      I.Srcs = [.Var V0, .Var V1, .Var V2] ∧ I.getSrcSize = 3 ∧ I.MaxSrcs = 3 ∧
      I.getDest = some Dest) ∧
    (∃ I, InstARM32CmpLike.create K V0 Src Predicate = some I ∧
      I.Srcs = [.Var V0, Src] ∧ I.getSrcSize = 2 ∧ I.MaxSrcs = 2 ∧ I.getDest = none) := by
  exact ⟨⟨_, rfl, rfl, rfl, rfl, rfl⟩, ⟨_, rfl, rfl, rfl, rfl, rfl⟩,
    ⟨_, rfl, rfl, rfl, rfl, rfl⟩, ⟨_, rfl, rfl, rfl, rfl, rfl⟩,
    ⟨_, rfl, rfl, rfl, rfl, rfl⟩, ⟨_, rfl, rfl, rfl, rfl, rfl⟩,
    ⟨_, rfl, rfl, rfl, rfl, rfl⟩⟩

/-- C17, the code at the failing input: the class of `Dmb` is declared with base
`InstARM32Pred`, so a barrier carries the `Predicate` field that
`getPredicate()` reads and `setPredicate()` changes; the classes of `Trap`,
`Call`, `Push`, `Pop` and `Ret` have base `InstARM32` and carry none. -/
theorem Dmb_declared_predicable :
    InstARM32.InstKindARM32.Dmb.baseClass = .InstARM32Pred ∧
    InstARM32.InstKindARM32.Trap.baseClass = .InstARM32 ∧
    InstARM32.InstKindARM32.Call.baseClass = .InstARM32 ∧
    InstARM32.InstKindARM32.Push.baseClass = .InstARM32 ∧
    InstARM32.InstKindARM32.Pop.baseClass = .InstARM32 ∧
    InstARM32.InstKindARM32.Ret.baseClass = .InstARM32 := by
  decide

/-- C19: no multi-part move is multi-destination and multi-source at once: for
every `InstARM32Mov` produced by `create`, `isMultiDest()` and `isMultiSource()`
are not both true, and the source count is 1 or 2, so the assertion inside
`isMultiSource()` never fails. -/
theorem Mov_not_multiDest_and_multiSource {Cond : Type}
    (Split : Variable → Operand → InstARM32Mov.Parts) (Dest : Variable) (Src : Operand)
    (Predicate : Cond) :
    ∃ I, InstARM32Mov.create Split Dest Src Predicate = some I ∧
      (I.getSrcSize = 1 ∨ I.getSrcSize = 2) ∧
      (∃ b, I.isMultiSource = some b ∧ ¬ (I.isMultiDest = true ∧ b = true)) := by
  unfold InstARM32Mov.create InstARM32Mov.construct
  cases Split Dest Src with
  | SingleDestSingleSource D S =>
    exact ⟨_, rfl, Or.inl rfl, false, rfl, by simp⟩
  | SingleDestMultiSource D SLo SHi =>
    exact ⟨_, rfl, Or.inr rfl, true, rfl, by simp [InstARM32Mov.isMultiDest]⟩
  | MultiDestSingleSource DLo DHi S =>
    exact ⟨_, rfl, Or.inl rfl, false, rfl, by simp⟩

/-- C21: the one-target conditional `create(Func, Target, Predicate)` fails
(assertion) exactly when the predicate is AL; for every other predicate it yields
a branch whose `getTargetTrue()` is `Target`, whose `getTargetFalse()` is absent
(fallthrough), which has no label, and whose predicate is the one given. -/
theorem createFallthrough_shape {Cond : Type} [DecidableEq Cond] (AL : Cond)
    (Target : Option CfgNode) (Predicate : Cond) :
    (InstARM32Br.createFallthrough AL Target Predicate = none ↔ Predicate = AL) ∧
    (Predicate ≠ AL →
      ∃ B, InstARM32Br.createFallthrough AL Target Predicate = some B ∧
        B.getTargetTrue = Target ∧ B.getTargetFalse = none ∧ B.Label = none ∧
        B.getPredicate = Predicate) := by
  by_cases hP : Predicate = AL
  · exact ⟨⟨fun _ => hP, fun _ => by simp [InstARM32Br.createFallthrough, hP]⟩,
      fun h => absurd hP h⟩
  · have hc := InstARM32Br.createFallthrough_of_ne AL Target Predicate hP
    refine ⟨⟨fun h => ?_, fun h => absurd h hP⟩, fun _ => ⟨_, hc, rfl, rfl, rfl, rfl⟩⟩
    rw [hc] at h
    cases h

/-- Witness of C21, with the conditions read as numbers and `AL` as 14: under
predicate 1 the one-target `create` to node 7 yields a conditional branch to
node 7 that falls through otherwise. -/
theorem createFallthrough_shape_witness :
    ∃ B, InstARM32Br.createFallthrough (14 : Nat) (some ⟨7⟩) 1 = some B ∧
      B.getTargetTrue = some ⟨7⟩ ∧ B.getTargetFalse = none ∧ B.Label = none ∧
      B.getPredicate = 1 :=
  (createFallthrough_shape (14 : Nat) (some ⟨7⟩) 1).2 (by decide)

/-- C22: the operand kind tags partition cleanly: for every operand kind,
`OperandARM32Flex::classof` accepts it iff exactly one of
`OperandARM32FlexImm::classof` and `OperandARM32FlexReg::classof` accepts it, and
no kind is accepted by both `OperandARM32Mem::classof` and
`OperandARM32Flex::classof`; `kMem`, `kFlexImm`, `kFlexReg` are three distinct
consecutive values above `Operand::kTarget`, with `kFlexStart = kFlexImm` and
`kFlexEnd = kFlexReg`. -/
theorem operand_kinds_partition (kTarget : Nat) :
    (∀ Kind : Nat, OperandARM32Flex.classof kTarget Kind = true ↔
      ((OperandARM32FlexImm.classof kTarget Kind = true ∧
          OperandARM32FlexReg.classof kTarget Kind = false) ∨
        (OperandARM32FlexImm.classof kTarget Kind = false ∧
          OperandARM32FlexReg.classof kTarget Kind = true))) ∧
    (∀ Kind : Nat, ¬ (OperandARM32Mem.classof kTarget Kind = true ∧
      OperandARM32Flex.classof kTarget Kind = true)) ∧
    OperandARM32.kMem kTarget = kTarget + 1 ∧
    OperandARM32.kFlexImm kTarget = kTarget + 2 ∧
    OperandARM32.kFlexReg kTarget = kTarget + 3 ∧
    OperandARM32.kFlexStart kTarget = OperandARM32.kFlexImm kTarget ∧
    OperandARM32.kFlexEnd kTarget = OperandARM32.kFlexReg kTarget := by
  refine ⟨fun Kind => ?_, fun Kind => ?_, rfl, rfl, rfl, rfl, rfl⟩
  · simp only [OperandARM32Flex.classof, OperandARM32FlexImm.classof,
      OperandARM32FlexReg.classof, OperandARM32.kFlexEnd, OperandARM32.kFlexReg,
      OperandARM32.kFlexImm, OperandARM32.kFlexStart, OperandARM32.kMem,
      OperandARM32.k__Start, Bool.and_eq_true, decide_eq_true_eq, beq_iff_eq,
      beq_eq_false_iff_ne, ne_eq]
    omega
  · simp only [OperandARM32Mem.classof, OperandARM32Flex.classof, OperandARM32.kFlexEnd,
      OperandARM32.kFlexReg, OperandARM32.kFlexImm, OperandARM32.kFlexStart,
      OperandARM32.kMem, OperandARM32.k__Start, Bool.and_eq_true, decide_eq_true_eq,
      beq_iff_eq]
    omega

/-- C23: for every move instruction, `isRedundantAssign()` is false whenever
`isMultiDest()` or `isMultiSource()` is true; when both are false it equals
`checkForRedundantAssign(getDest(), getSrc(0))`. -/
theorem isRedundantAssign_single_only {Cond : Type}
    (checkForRedundantAssign : Option Variable → Operand → Bool) (I : InstARM32Mov Cond) :
    (I.isMultiDest = true → I.isRedundantAssign checkForRedundantAssign = some false) ∧
    (I.isMultiSource = some true →
      I.isRedundantAssign checkForRedundantAssign = some false) ∧
    (I.isMultiDest = false → I.isMultiSource = some false →
      ∃ Src0, I.getSrc 0 = some Src0 ∧
        I.isRedundantAssign checkForRedundantAssign =
          some (checkForRedundantAssign I.getDest Src0)) := by
  refine ⟨fun hD => ?_, fun hS => ?_, fun hD hS => ?_⟩
  · simp [InstARM32Mov.isRedundantAssign, hD]
  · cases hD : I.isMultiDest <;> simp [InstARM32Mov.isRedundantAssign, hD, hS]
  · have hsize : I.getSrcSize = 1 := by
      unfold InstARM32Mov.isMultiSource at hS
      split at hS
      · rename_i h12
        have hne : ¬ I.getSrcSize = 2 := by
          intro h2
          simp [h2] at hS
        rcases h12 with h1 | h2
        · exact h1
        · exact absurd h2 hne
      · cases hS
    have hlen : I.Srcs.length = 1 := hsize
    obtain ⟨Src0, hsrc⟩ : ∃ Src0, I.Srcs = [Src0] := List.length_eq_one.mp hlen
    refine ⟨Src0, ?_, ?_⟩
    · simp [InstARM32.getSrc, hsrc]
    · simp [InstARM32Mov.isRedundantAssign, hD, hS, InstARM32.getSrc, hsrc]

/-- Witness of C23: the single-destination, single-source move of variable 1
into variable 0, with a check that accepts a source that is the destination
itself, is not redundant. -/
theorem isRedundantAssign_single_only_witness :
    InstARM32Mov.isRedundantAssign
        (fun Dest Src => decide (Dest.map Operand.Var = some Src))
        (⟨⟨⟨.Mov, 2, some ⟨4, 0⟩, [.Var ⟨4, 1⟩]⟩, (14 : Nat)⟩, none⟩ : InstARM32Mov Nat) =
      some false := by
  obtain ⟨Src0, hsrc, hred⟩ := (isRedundantAssign_single_only
    (fun Dest Src => decide (Dest.map Operand.Var = some Src))
    (⟨⟨⟨.Mov, 2, some ⟨4, 0⟩, [.Var ⟨4, 1⟩]⟩, (14 : Nat)⟩, none⟩ : InstARM32Mov Nat)).2.2
    rfl rfl
  rw [hred]
  have h0 : Src0 = .Var ⟨4, 1⟩ := by
    have h := hsrc
    simp [InstARM32.getSrc] at h
    exact h.symm
  subst h0
  decide

/-- C24: a freshly created `StackVariable` has `getBaseRegNum()` equal to
`Variable::NoRegister`; for every `r`, after `setBaseRegNum(r)`,
`getBaseRegNum()` is `r` (the last value set wins) and the variable's type and
index are unchanged. -/
theorem StackVariable_baseRegNum (NoRegister : Int) (Ty : IceType) (Index : Nat) :
    (StackVariable.create NoRegister Ty Index).getBaseRegNum = NoRegister ∧
    (StackVariable.create NoRegister Ty Index).Ty = Ty ∧
    (StackVariable.create NoRegister Ty Index).Index = Index ∧
    (∀ (V : StackVariable) (r : Int),
      (V.setBaseRegNum r).getBaseRegNum = r ∧
      (V.setBaseRegNum r).Ty = V.Ty ∧ (V.setBaseRegNum r).Index = V.Index) ∧
    (∀ (V : StackVariable) (r1 r2 : Int),
      ((V.setBaseRegNum r1).setBaseRegNum r2).getBaseRegNum = r2) := by
  exact ⟨rfl, rfl, rfl, fun _ _ => ⟨rfl, rfl, rfl⟩, fun _ _ _ => rfl⟩

end Ice
